import Mathlib

/-!
Verification development for the Weather & Alarm application's alarm and
notification subsystems (`src/utils/alarm_manager.py`,
`src/utils/notification_manager.py`, `src/config.py`).

Embedding conventions:
* `QTime` values are modelled by their hour/minute pair (`QTimeHM`); the
  alarms only ever read `hour()`/`minute()`.  Theorems about serialized
  times are stated for valid times (hour < 24, minute < 60), where
  `QTime.toString "HH:mm"` is the two-digit zero-padded rendering.
* Python `datetime` values are modelled as integer timestamps on a linear
  time axis (minutes); `datetime` comparison and `timedelta` arithmetic
  correspond to integer comparison and subtraction, and a `QDate` is its
  (abstract) linear day index.
* Qt signal emissions are modelled as explicit event lists returned next to
  the new state; the JSON backing file written by `save_alarms` is modelled
  by the `stored` field of the manager state.
* Python exceptions inside the embedded fragment (`KeyError`, `ValueError`,
  `IndexError` in `Alarm.from_dict`, `json` failures in `load_alarms`) are
  modelled with `Option`: `none` is a raised exception.
* Python strings are manipulated through their character lists; `str.split`
  and `int` are embedded as `splitOnChar` and `parseNatDigits` (the inputs
  reached here are pure digit strings).
-/

set_option autoImplicit false

namespace WeatherAlarmApp

/-- Embeds `config.py`: `DEFAULT_ALARM_DURATION = 60` (seconds). -/
def DEFAULT_ALARM_DURATION : Nat := 60

/-- A `QTime` as consumed by the alarm code: hour and minute. -/
structure QTimeHM where
  hour : Nat
  minute : Nat
  deriving DecidableEq, Repr

/-- Embeds `Alarm` (alarm_manager.py): time, auto_dismiss, duration, enabled, label, id. -/
structure Alarm where
  time : QTimeHM
  auto_dismiss : Bool
  duration : Nat
  enabled : Bool
  label : String
  id : String
  deriving DecidableEq, Repr

/-- Embeds `Alarm.__eq__`: two alarms are equal iff their hours and minutes agree
(id, label, flags play no role). -/
def Alarm.eq (self other : Alarm) : Bool :=
  self.time.hour == other.time.hour && self.time.minute == other.time.minute

/-- Two-digit zero-padded decimal rendering of `n < 100`, as characters. -/
def two_digits (n : Nat) : List Char :=
  [Nat.digitChar (n / 10), Nat.digitChar (n % 10)]

/-- Embeds `QTime.toString("HH:mm")` for a valid time: `HH:MM`, zero padded. -/
def formatHM (h m : Nat) : String :=
  String.mk (two_digits h ++ [':'] ++ two_digits m)

/-- The fresh id computed in `Alarm.__init__`:
`f"{time.toString('HH:mm')}_{datetime.now().strftime('%Y%m%d%H%M%S')}"`;
the wall-clock stamp is passed in as `nowStamp`. -/
def freshAlarmId (t : QTimeHM) (nowStamp : String) : String :=
  formatHM t.hour t.minute ++ "_" ++ nowStamp

/-- One JSON object of the alarms file.  `Option` fields model possibly
absent keys (`dict.get` with a default in `from_dict`); `to_dict` always
writes every key. -/
structure AlarmDict where
  id : Option String
  time : Option String
  auto_dismiss : Option Bool
  duration : Option Nat
  enabled : Option Bool
  label : Option String
  deriving DecidableEq, Repr

/-- Embeds `Alarm.to_dict`. -/
def Alarm.to_dict (a : Alarm) : AlarmDict :=
  { id := some a.id
    time := some (formatHM a.time.hour a.time.minute)
    auto_dismiss := some a.auto_dismiss
    duration := some a.duration
    enabled := some a.enabled
    label := some a.label }

/-- Python `str.split(sep)` for a one-character separator, on char lists. -/
def splitOnChar (c : Char) : List Char → List (List Char)
  | [] => [[]]
  | x :: xs =>
    let rest := splitOnChar c xs
    if x = c then [] :: rest
    else
      match rest with
      | h :: t => (x :: h) :: t
      | [] => [[x]]

/-- Value of a decimal digit character; `none` on a non-digit. -/
def digitVal (c : Char) : Option Nat :=
  if c.isDigit then some (c.toNat - 48) else none

/-- Python `int(s)` on the digit strings reached by `from_dict`: `none`
(a `ValueError`) on an empty or non-digit string. -/
def parseNatDigits (l : List Char) : Option Nat :=
  match l with
  | [] => none
  | _ => l.foldlM (fun acc c => (digitVal c).map (fun d => acc * 10 + d)) 0

/-- Embeds `Alarm.from_dict`: split the `time` field on `':'`, parse hour and
minute, and build the alarm with `dict.get` defaults; the stored `id`
overrides the freshly derived one when present.  `none` models any raised
exception (missing `time` key, malformed time string). -/
def Alarm.from_dict (nowStamp : String) (data : AlarmDict) : Option Alarm :=
  match data.time with
  | none => none
  | some tstr =>
    match splitOnChar ':' tstr.data with
    | p0 :: p1 :: _ =>
      match parseNatDigits p0, parseNatDigits p1 with
      | some h, some m =>
        let t : QTimeHM := ⟨h, m⟩
        some
          { time := t
            auto_dismiss := data.auto_dismiss.getD true
            duration := data.duration.getD DEFAULT_ALARM_DURATION
            enabled := data.enabled.getD true
            label := data.label.getD ""
            id := data.id.getD (freshAlarmId t nowStamp) }
      | _, _ => none
    | _ => none

/-- Events emitted by `AlarmManager` (its two Qt signals). -/
inductive AMEvent where
  | alarm_triggered (a : Alarm)
  | alarms_updated (alarms : List Alarm)
  deriving DecidableEq, Repr

/-- The `active_alarms` dict: alarm id ↦ the pending one-shot auto-dismiss
timer, represented by its delay in milliseconds. -/
abbrev ActiveDict := List (String × Nat)

/-- Key membership (`alarm.id in self.active_alarms`). -/
def keyMem (d : ActiveDict) (k : String) : Bool :=
  d.any (fun p => p.1 == k)

/-- Dict update `self.active_alarms[k] = v`. -/
def dictSet : ActiveDict → String → Nat → ActiveDict
  | [], k, v => [(k, v)]
  | (k', v') :: rest, k, v =>
    if k' = k then (k, v) :: rest else (k', v') :: dictSet rest k v

/-- Dict removal `self.active_alarms.pop(k)`; a Python dict holds at most
one entry per key, so on the association-list model this drops every pair
with that key. -/
def dictPop (d : ActiveDict) (k : String) : ActiveDict :=
  d.filter (fun p => !(p.1 == k))

/-- Dict lookup `self.active_alarms[k]`. -/
def lookupKey : ActiveDict → String → Option Nat
  | [], _ => none
  | (k', v') :: rest, k => if k' = k then some v' else lookupKey rest k

/-- State of `AlarmManager`: the alarm list, the `active_alarms` dict of
pending auto-dismiss timers, and the content of the alarms backing file
after the last successful write. -/
structure AMState where
  alarms : List Alarm
  active_alarms : ActiveDict
  stored : List AlarmDict
  deriving Repr

/-- Embeds `AlarmManager.save_alarms`: serialize the full alarm list over the
backing file (the success path; a write failure leaves `stored` stale and
is only logged). -/
def AMState.save_alarms (st : AMState) : AMState :=
  { st with stored := st.alarms.map Alarm.to_dict }

/-- Embeds `AlarmManager.add_alarm`: reject when an `__eq__`-equal alarm exists,
otherwise append, save, emit `alarms_updated`, return `True`. -/
def AMState.add_alarm (st : AMState) (alarm : Alarm) : AMState × List AMEvent × Bool :=
  if st.alarms.any (fun existing => existing.eq alarm) then
    (st, [], false)
  else
    let st1 := { st with alarms := st.alarms ++ [alarm] }
    let st2 := st1.save_alarms
    (st2, [AMEvent.alarms_updated st2.alarms], true)

/-- Embeds `AlarmManager.trigger_alarm`: emit `alarm_triggered`; when
`auto_dismiss`, start a one-shot timer of `duration * 1000` ms (wired to
`dismiss_alarm`) and record it in `active_alarms`. -/
def AMState.trigger_alarm (st : AMState) (alarm : Alarm) : AMState × List AMEvent :=
  if alarm.auto_dismiss then
    ({ st with active_alarms := dictSet st.active_alarms alarm.id (alarm.duration * 1000) },
     [AMEvent.alarm_triggered alarm])
  else
    (st, [AMEvent.alarm_triggered alarm])

/-- Embeds `AlarmManager.dismiss_alarm`: when the id has an active timer, stop and
drop it; otherwise do nothing.  No signal is emitted either way. -/
def AMState.dismiss_alarm (st : AMState) (alarm_id : String) : AMState × List AMEvent :=
  if keyMem st.active_alarms alarm_id then
    ({ st with active_alarms := dictPop st.active_alarms alarm_id }, [])
  else
    (st, [])

/-- Expiry of the one-shot timer started by `trigger_alarm`: the timer's
`timeout` is connected to `lambda: self.dismiss_alarm(alarm.id)`. -/
def AMState.timer_expiry (st : AMState) (alarm_id : String) : AMState × List AMEvent :=
  st.dismiss_alarm alarm_id

/-- The due test of `check_alarms` for one alarm at current time `now`
(hour, minute): enabled, hour and minute match, id not already active. -/
def dueNow (now : Nat × Nat) (st : AMState) (a : Alarm) : Bool :=
  a.enabled && a.time.hour == now.1 && a.time.minute == now.2 &&
    !(keyMem st.active_alarms a.id)

/-- The loop body of `check_alarms` over the alarm list, threading the
manager state (triggering mutates `active_alarms`). -/
def checkAlarmsGo (now : Nat × Nat) : List Alarm → AMState → AMState × List AMEvent
  | [], st => (st, [])
  | a :: rest, st =>
    if dueNow now st a then
      let r1 := st.trigger_alarm a
      let r2 := checkAlarmsGo now rest r1.1
      (r2.1, r1.2 ++ r2.2)
    else
      checkAlarmsGo now rest st

/-- Embeds `AlarmManager.check_alarms` at current wall-clock time `now`. -/
def AMState.check_alarms (st : AMState) (now : Nat × Nat) : AMState × List AMEvent :=
  checkAlarmsGo now st.alarms st

/-- The alarms backing file as seen by `load_alarms`: absent, present but
unparsable JSON, or a parsed array of records. -/
inductive AlarmsFile where
  | absent
  | unparsable
  | parsed (dicts : List AlarmDict)

/-- Embeds `AlarmManager.load_alarms`: an absent file returns early; an exception
while reading, parsing or converting records is caught and logged; on
success the alarm list is replaced and `alarms_updated` is emitted. -/
def AMState.load_alarms (st : AMState) (file : AlarmsFile) (nowStamp : String) :
    AMState × List AMEvent :=
  match file with
  | AlarmsFile.absent => (st, [])
  | AlarmsFile.unparsable => (st, [])
  | AlarmsFile.parsed dicts =>
    match dicts.mapM (Alarm.from_dict nowStamp) with
    | none => (st, [])
    | some alarms => ({ st with alarms := alarms }, [AMEvent.alarms_updated alarms])

/-- Rendering `strftime('%Y%m%d%H%M%S')` of a model timestamp, rendered opaquely as
its decimal value (ids only need the rendering to be a function of the
timestamp). -/
def stampStr (t : Int) : String := toString t

/-- Embeds `Notification` (notification_manager.py).  The `icon` and opaque `data`
payload are carried through the code untouched and are not modelled.  The
id is `f"{timestamp.strftime('%Y%m%d%H%M%S')}-{id(self)}"`; the
object-identity component `id(self)` is modelled by a per-manager counter
(`nextObjId`), which preserves exactly its uniqueness role. -/
structure Notification where
  title : String
  message : String
  timestamp : Int
  category : String
  read : Bool
  id : String
  deriving DecidableEq, Repr

/-- One entry of the `scheduled_notifications` pending queue (a Python
dict with title, message, when, category, id; icon/data not modelled). -/
structure ScheduledNotification where
  title : String
  message : String
  when : Int
  category : String
  id : String
  deriving DecidableEq, Repr

/-- Events emitted by `NotificationManager` (its Qt signals; the tray
popup of `show_notification` is UI and not modelled). -/
inductive NMEvent where
  | notification_added (n : Notification)
  | notification_removed (id : String)
  | notifications_updated (l : List Notification)
  deriving DecidableEq, Repr

/-- State of `NotificationManager`: delivered notifications, the pending
scheduled queue, and the counter modelling Python object identities. -/
structure NMState where
  notifications : List Notification
  scheduled_notifications : List ScheduledNotification
  nextObjId : Nat
  deriving Repr

/-- Embeds `NotificationManager.add_notification` at wall-clock time `now`:
create the notification (timestamp `datetime.now()`), append it, emit
`notification_added` then `notifications_updated`, and return it. -/
def NMState.add_notification (st : NMState) (now : Int) (title message category : String) :
    NMState × List NMEvent × Notification :=
  let n : Notification :=
    { title := title
      message := message
      timestamp := now
      category := category
      read := false
      id := stampStr now ++ "-" ++ toString st.nextObjId }
  let notifications1 := st.notifications ++ [n]
  ({ st with notifications := notifications1, nextObjId := st.nextObjId + 1 },
   [NMEvent.notification_added n, NMEvent.notifications_updated notifications1], n)

/-- Embeds `NotificationManager.schedule_notification`: build the request dict
with id `f"{when.strftime('%Y%m%d%H%M%S')}-{unique_id}"` (where
`unique_id = id(object())`), append it to the pending queue, return it.
No signal is emitted. -/
def NMState.schedule_notification (st : NMState) (title message : String) (when : Int)
    (category : String) : NMState × ScheduledNotification :=
  let s : ScheduledNotification :=
    { title := title
      message := message
      when := when
      category := category
      id := stampStr when ++ "-" ++ toString st.nextObjId }
  ({ st with scheduled_notifications := st.scheduled_notifications ++ [s],
             nextObjId := st.nextObjId + 1 }, s)

/-- Python `list.remove(x)`: drop the first element equal to `x` (dicts
compare by value); no-op when absent (unreached here: `remove` is only
called on collected members). -/
def removeFirst : List ScheduledNotification → ScheduledNotification →
    List ScheduledNotification
  | [], _ => []
  | y :: ys, x => if y = x then ys else y :: removeFirst ys x

/-- First phase of `check_scheduled_notifications`: walk the pending queue
in order; for each request with `when <= now`, deliver it through
`add_notification` and collect it into `to_remove`. -/
def checkScheduledGo (now : Int) : List ScheduledNotification → NMState →
    NMState × List NMEvent × List ScheduledNotification
  | [], st => (st, [], [])
  | s :: rest, st =>
    if s.when ≤ now then
      let r1 := st.add_notification now s.title s.message s.category
      let r2 := checkScheduledGo now rest r1.1
      (r2.1, r1.2.1 ++ r2.2.1, s :: r2.2.2)
    else
      checkScheduledGo now rest st

/-- Embeds `NotificationManager.check_scheduled_notifications` at time `now`:
deliver every due request, then remove the delivered requests from the
pending queue with `list.remove`. -/
def NMState.check_scheduled_notifications (st : NMState) (now : Int) :
    NMState × List NMEvent :=
  let r := checkScheduledGo now st.scheduled_notifications st
  ({ r.1 with scheduled_notifications :=
      r.2.2.foldl removeFirst r.1.scheduled_notifications }, r.2.1)

/-- A `QDate`, modelled by its linear day index (the calendar encoding
year/month/day is a bijection with the day count and plays no other
role in the embedded code). -/
structure QDate where
  dayIndex : Int
  deriving DecidableEq, Repr

/-- Embeds `datetime(date.year(), date.month(), date.day(), time.hour(),
time.minute(), 0)` on the linear minute axis. -/
def mkDatetime (d : QDate) (t : QTimeHM) : Int :=
  d.dayIndex * 1440 + (t.hour : Int) * 60 + (t.minute : Int)

/-- The calendar-event record consumed by
`schedule_calendar_notification`: `event_data.get('title')`,
`.get('date')` (a `QDate`), `.get('time')` (a `QTime`). -/
structure EventData where
  title : Option String
  date : Option QDate
  time : Option QTimeHM

/-- Embeds `NotificationManager.schedule_calendar_notification` at current time
`now`: reject (return `None`) without a date and time; compute
`event_datetime - timedelta(minutes=minutes_before)`; reject when that is
in the past; otherwise schedule a category `"calendar"` request. -/
def NMState.schedule_calendar_notification (st : NMState) (now : Int)
    (event_data : EventData) (minutes_before : Int) :
    NMState × Option ScheduledNotification :=
  let title := event_data.title.getD "Untitled Event"
  match event_data.date, event_data.time with
  | some date, some time =>
    let event_datetime := mkDatetime date time
    let notification_time := event_datetime - minutes_before
    if notification_time < now then
      (st, none)
    else
      let r := st.schedule_notification ("Upcoming Event: " ++ title)
        ("Event starts in " ++ toString minutes_before ++ " minutes")
        notification_time "calendar"
      (r.1, some r.2)
  | _, _ => (st, none)

/-- The notification that `add_notification` creates for request `s` at
time `now` when the manager's object counter is `objId`. -/
def deliverNotif (now : Int) (objId : Nat) (s : ScheduledNotification) : Notification :=
  { title := s.title
    message := s.message
    timestamp := now
    category := s.category
    read := false
    id := stampStr now ++ "-" ++ toString objId }

/-- The notifications delivered for a run of due requests, counter
incrementing per delivery. -/
def deliverList (now : Int) : Nat → List ScheduledNotification → List Notification
  | _, [] => []
  | objId, s :: rest => deliverNotif now objId s :: deliverList now (objId + 1) rest

/-- The event trace produced while delivering a run of due requests, given
the already-delivered notification list. -/
def deliverEvents (now : Int) :
    Nat → List Notification → List ScheduledNotification → List NMEvent
  | _, _, [] => []
  | objId, delivered, s :: rest =>
    NMEvent.notification_added (deliverNotif now objId s) ::
      NMEvent.notifications_updated (delivered ++ [deliverNotif now objId s]) ::
        deliverEvents now (objId + 1) (delivered ++ [deliverNotif now objId s]) rest

/-- The `notification_added` payloads of an event trace. -/
def addedOf (evs : List NMEvent) : List Notification :=
  evs.filterMap (fun e =>
    match e with
    | NMEvent.notification_added n => some n
    | _ => none)

/-- No two alarms of the list are `__eq__`-equal (share hour and minute):
the invariant `add_alarm` maintains. -/
def timesDistinct (l : List Alarm) : Prop :=
  l.Pairwise (fun x y => ¬(x.time.hour = y.time.hour ∧ x.time.minute = y.time.minute))

/-! ## Concrete fixtures used by witnesses and counterexamples -/

/-- An alarm manager with no alarms, no active timers, empty file: the
state right after `__init__` with an absent backing file. -/
def emptyAM : AMState := { alarms := [], active_alarms := [], stored := [] }

/-- A concrete auto-dismiss alarm at 08:00. -/
def exAlarm : Alarm :=
  { time := ⟨8, 0⟩, auto_dismiss := true, duration := 60, enabled := true,
    label := "Gym", id := "08:00_20240101070000" }

/-- A second alarm at the same 08:00 time, different id/label/flags. -/
def exAlarmB : Alarm :=
  { time := ⟨8, 0⟩, auto_dismiss := false, duration := 30, enabled := true,
    label := "Other", id := "08:00_20240101070500" }

/-- A non-auto-dismiss enabled alarm at 08:00. -/
def exAlarmNoAuto : Alarm :=
  { time := ⟨8, 0⟩, auto_dismiss := false, duration := 60, enabled := true,
    label := "", id := "08:00_20240101060000" }

/-- A disabled alarm at 09:30. -/
def exAlarmDisabled : Alarm :=
  { time := ⟨9, 30⟩, auto_dismiss := true, duration := 60, enabled := false,
    label := "", id := "09:30_20240101050000" }

/-- A concrete pending scheduled-notification request due at time 100. -/
def exSched : ScheduledNotification :=
  { title := "t", message := "m", when := 100, category := "general", id := "100-0" }

/-- A notification manager holding one pending request. -/
def exNM : NMState :=
  { notifications := [], scheduled_notifications := [exSched], nextObjId := 1 }

/-- A concrete calendar event on day 10 at 12:00. -/
def exEvent : EventData :=
  { title := some "Standup", date := some ⟨10⟩, time := some ⟨12, 0⟩ }

/-! ## Helper lemmas: serialization -/

lemma digitChar_ne_colon : ∀ n < 10, Nat.digitChar n ≠ ':' := by decide

lemma digitVal_digitChar : ∀ n < 10, digitVal (Nat.digitChar n) = some n := by decide

lemma splitOnChar_formatHM (h m : Nat) (hh : h < 100) (hm : m < 100) :
    splitOnChar ':' (formatHM h m).data = [two_digits h, two_digits m] := by
  have h1 : h / 10 < 10 := by omega
  have h2 : h % 10 < 10 := by omega
  have h3 : m / 10 < 10 := by omega
  have h4 : m % 10 < 10 := by omega
  simp [formatHM, two_digits, splitOnChar,
    digitChar_ne_colon _ h1, digitChar_ne_colon _ h2,
    digitChar_ne_colon _ h3, digitChar_ne_colon _ h4]

lemma parseNatDigits_two_digits (n : Nat) (hn : n < 100) :
    parseNatDigits (two_digits n) = some n := by
  have h1 : n / 10 < 10 := by omega
  have h2 : n % 10 < 10 := by omega
  simp [parseNatDigits, two_digits, List.foldlM,
    digitVal_digitChar _ h1, digitVal_digitChar _ h2]
  omega

lemma from_dict_formatHM (stamp : String) (h m : Nat) (hh : h < 100) (hm : m < 100)
    (oid : Option String) (oad : Option Bool) (odur : Option Nat) (oen : Option Bool)
    (olab : Option String) :
    Alarm.from_dict stamp ⟨oid, some (formatHM h m), oad, odur, oen, olab⟩ =
      some
        { time := ⟨h, m⟩
          auto_dismiss := oad.getD true
          duration := odur.getD DEFAULT_ALARM_DURATION
          enabled := oen.getD true
          label := olab.getD ""
          id := oid.getD (freshAlarmId ⟨h, m⟩ stamp) } := by
  simp [Alarm.from_dict, splitOnChar_formatHM h m hh hm,
    parseNatDigits_two_digits h hh, parseNatDigits_two_digits m hm]

lemma from_dict_to_dict (stamp : String) (a : Alarm)
    (hh : a.time.hour < 24) (hm : a.time.minute < 60) :
    Alarm.from_dict stamp a.to_dict = some a := by
  obtain ⟨⟨h, m⟩, ad, dur, en, lab, i⟩ := a
  dsimp only at hh hm
  simp only [Alarm.to_dict]
  rw [from_dict_formatHM stamp h m (by omega) (by omega)]
  simp

lemma mapM_from_to (stamp : String) (alarms : List Alarm)
    (hv : ∀ b ∈ alarms, b.time.hour < 24 ∧ b.time.minute < 60) :
    (alarms.map Alarm.to_dict).mapM (Alarm.from_dict stamp) = some alarms := by
  induction alarms with
  | nil => rfl
  | cons a rest ih =>
    have ha := hv a (by simp)
    simp only [List.map_cons, List.mapM_cons,
      from_dict_to_dict stamp a ha.1 ha.2,
      ih (fun b hb => hv b (by simp [hb]))]
    rfl

/-! ## C1, C4, C8, C10 -/

/-- C1: Alarm de-duplication.  When no alarm `__eq__`-equal to `A` exists,
`add_alarm A` appends `A`, persists the new sequence, emits
`alarms_updated` with the new sequence, and returns `true`; a subsequent
`add_alarm B` for any `B` sharing `A`'s (hour, minute) — id and label play
no role — returns `false`, leaves the state unchanged and emits nothing. -/
theorem c1_add_alarm_dedup (st : AMState) (A B : Alarm)
    (hA : ∀ e ∈ st.alarms, e.eq A = false)
    (hhour : A.time.hour = B.time.hour) (hmin : A.time.minute = B.time.minute) :
    (st.add_alarm A).2.2 = true ∧
    (st.add_alarm A).1.alarms = st.alarms ++ [A] ∧
    (st.add_alarm A).1.stored = (st.alarms ++ [A]).map Alarm.to_dict ∧
    (st.add_alarm A).2.1 = [AMEvent.alarms_updated (st.alarms ++ [A])] ∧
    (st.add_alarm A).1.add_alarm B = ((st.add_alarm A).1, [], false) := by
  have hcond : st.alarms.any (fun e => e.eq A) = false := by
    rw [List.any_eq_false]
    intro e he
    simp [hA e he]
  have hAB : A.eq B = true := by
    simp [Alarm.eq, hhour, hmin]
  have hcond2 : (st.alarms ++ [A]).any (fun e => e.eq B) = true := by
    simp [List.any_append, hAB]
  simp [AMState.add_alarm, AMState.save_alarms, hcond, hcond2]

/-- Witness for C1 at a concrete input: empty manager, `exAlarm` then
`exAlarmB`, both at 08:00. -/
theorem c1_add_alarm_dedup_witness :
    (emptyAM.add_alarm exAlarm).2.2 = true ∧
    (emptyAM.add_alarm exAlarm).1.alarms = emptyAM.alarms ++ [exAlarm] ∧
    (emptyAM.add_alarm exAlarm).1.stored = (emptyAM.alarms ++ [exAlarm]).map Alarm.to_dict ∧
    (emptyAM.add_alarm exAlarm).2.1 = [AMEvent.alarms_updated (emptyAM.alarms ++ [exAlarm])] ∧
    (emptyAM.add_alarm exAlarm).1.add_alarm exAlarmB = ((emptyAM.add_alarm exAlarm).1, [], false) :=
  c1_add_alarm_dedup emptyAM exAlarm exAlarmB (by simp [emptyAM]) (by decide) (by decide)

/-- C4: serialization round-trip is lossless.  `from_dict ∘ to_dict` is
the identity on every alarm with a valid time, and loading the file
written by `save_alarms` reproduces the alarm sequence and re-emits it. -/
theorem c4_serialization_roundtrip (stamp : String) (a : Alarm) (alarms : List Alarm)
    (st0 : AMState)
    (hh : a.time.hour < 24) (hm : a.time.minute < 60)
    (hv : ∀ b ∈ alarms, b.time.hour < 24 ∧ b.time.minute < 60) :
    Alarm.from_dict stamp a.to_dict = some a ∧
    (st0.load_alarms
        (AlarmsFile.parsed ({ st0 with alarms := alarms } : AMState).save_alarms.stored)
        stamp).1.alarms = alarms ∧
    (st0.load_alarms
        (AlarmsFile.parsed ({ st0 with alarms := alarms } : AMState).save_alarms.stored)
        stamp).2 = [AMEvent.alarms_updated alarms] := by
  have hmm := mapM_from_to stamp alarms hv
  refine ⟨from_dict_to_dict stamp a hh hm, ?_, ?_⟩ <;>
    simp only [AMState.save_alarms, AMState.load_alarms, hmm]

/-- Witness for C4 at a concrete input. -/
theorem c4_serialization_roundtrip_witness :
    Alarm.from_dict "20240102120000" exAlarm.to_dict = some exAlarm ∧
    (emptyAM.load_alarms
        (AlarmsFile.parsed ({ emptyAM with alarms := [exAlarm] } : AMState).save_alarms.stored)
        "20240102120000").1.alarms = [exAlarm] ∧
    (emptyAM.load_alarms
        (AlarmsFile.parsed ({ emptyAM with alarms := [exAlarm] } : AMState).save_alarms.stored)
        "20240102120000").2 = [AMEvent.alarms_updated [exAlarm]] :=
  c4_serialization_roundtrip "20240102120000" exAlarm [exAlarm] emptyAM
    (by decide) (by decide) (by decide)

/-- C8: load never fails the caller.  On the post-`__init__` state (empty
alarm list), `load_alarms` with an absent backing file returns the empty
sequence with no event, and likewise when the file exists but is
unparsable; the embedded function is total (every exception is caught). -/
theorem c8_load_never_fails (stamp : String) (st : AMState) (h0 : st.alarms = []) :
    st.load_alarms AlarmsFile.absent stamp = (st, []) ∧
    (st.load_alarms AlarmsFile.absent stamp).1.alarms = [] ∧
    st.load_alarms AlarmsFile.unparsable stamp = (st, []) ∧
    (st.load_alarms AlarmsFile.unparsable stamp).1.alarms = [] := by
  refine ⟨rfl, ?_, rfl, ?_⟩ <;> simp [AMState.load_alarms, h0]

/-- Witness for C8 at a concrete input. -/
theorem c8_load_never_fails_witness :
    emptyAM.load_alarms AlarmsFile.absent "20240101120000" = (emptyAM, []) ∧
    (emptyAM.load_alarms AlarmsFile.absent "20240101120000").1.alarms = [] ∧
    emptyAM.load_alarms AlarmsFile.unparsable "20240101120000" = (emptyAM, []) ∧
    (emptyAM.load_alarms AlarmsFile.unparsable "20240101120000").1.alarms = [] :=
  c8_load_never_fails "20240101120000" emptyAM rfl

/-- C10: deserialization tolerates partial records.  For any record whose
`time` field is an `HH:MM` rendering of a valid time, `from_dict` succeeds
whatever subset of the keys id/auto_dismiss/duration/enabled/label is
present, substituting `auto_dismiss = true`, `duration = 60`,
`enabled = true`, `label = ""` and the freshly derived id. -/
theorem c10_from_dict_defaults (stamp : String) (h m : Nat) (hh : h < 24) (hm : m < 60)
    (oid : Option String) (oad : Option Bool) (odur : Option Nat) (oen : Option Bool)
    (olab : Option String) :
    Alarm.from_dict stamp ⟨oid, some (formatHM h m), oad, odur, oen, olab⟩ =
      some
        { time := ⟨h, m⟩
          auto_dismiss := oad.getD true
          duration := odur.getD DEFAULT_ALARM_DURATION
          enabled := oen.getD true
          label := olab.getD ""
          id := oid.getD (freshAlarmId ⟨h, m⟩ stamp) } :=
  from_dict_formatHM stamp h m (by omega) (by omega) oid oad odur oen olab

/-- Witness for C10 at a concrete input: a record carrying only `time`. -/
theorem c10_from_dict_defaults_witness :
    Alarm.from_dict "20240101120000" ⟨none, some (formatHM 7 5), none, none, none, none⟩ =
      some
        { time := ⟨7, 5⟩, auto_dismiss := true, duration := 60, enabled := true,
          label := "", id := "07:05_20240101120000" } := by
  rw [c10_from_dict_defaults "20240101120000" 7 5 (by decide) (by decide)
    none none none none none]
  rfl

/-! ## Helper lemmas: active-timer dict and due-check loop -/

lemma keyMem_dictSet_self (d : ActiveDict) (k : String) (v : Nat) :
    keyMem (dictSet d k v) k = true := by
  induction d with
  | nil => simp [dictSet, keyMem]
  | cons p rest ih =>
    obtain ⟨k', v'⟩ := p
    by_cases hk : k' = k
    · simp [dictSet, hk, keyMem]
    · simp only [dictSet, if_neg hk, keyMem, List.any_cons] at ih ⊢
      simp [ih]

lemma keyMem_dictSet_ne (d : ActiveDict) (k k' : String) (v : Nat) (h : k' ≠ k) :
    keyMem (dictSet d k v) k' = keyMem d k' := by
  induction d with
  | nil => simp [dictSet, keyMem, Ne.symm h]
  | cons p rest ih =>
    obtain ⟨a, b⟩ := p
    by_cases hk : a = k
    · subst hk
      simp [dictSet, keyMem]
    · simp only [dictSet, if_neg hk, keyMem, List.any_cons] at ih ⊢
      simp [ih]

lemma keyMem_dictPop_self (d : ActiveDict) (k : String) :
    keyMem (dictPop d k) k = false := by
  rw [keyMem, List.any_eq_false]
  intro p hp
  rw [dictPop, List.mem_filter] at hp
  simpa using hp.2

lemma lookupKey_dictSet_self (d : ActiveDict) (k : String) (v : Nat) :
    lookupKey (dictSet d k v) k = some v := by
  induction d with
  | nil => simp [dictSet, lookupKey]
  | cons p rest ih =>
    obtain ⟨a, b⟩ := p
    by_cases hk : a = k
    · simp [dictSet, hk, lookupKey]
    · simp [dictSet, hk, lookupKey, ih]

lemma trigger_alarm_fst_alarms (st : AMState) (a : Alarm) :
    ((st.trigger_alarm a).1).alarms = st.alarms := by
  by_cases h : a.auto_dismiss <;> simp [AMState.trigger_alarm, h]

lemma trigger_alarm_snd (st : AMState) (a : Alarm) :
    (st.trigger_alarm a).2 = [AMEvent.alarm_triggered a] := by
  by_cases h : a.auto_dismiss <;> simp [AMState.trigger_alarm, h]

lemma dueNow_false_of_not_match (now : Nat × Nat) (st : AMState) (b : Alarm)
    (h : ¬(b.time.hour = now.1 ∧ b.time.minute = now.2)) :
    dueNow now st b = false := by
  rcases not_and_or.mp h with h' | h' <;> simp [dueNow, h']

lemma checkAlarmsGo_no_match (now : Nat × Nat) (l : List Alarm) (st : AMState)
    (h : ∀ b ∈ l, dueNow now st b = false) :
    checkAlarmsGo now l st = (st, []) := by
  induction l with
  | nil => rfl
  | cons a rest ih =>
    simp only [checkAlarmsGo, h a (List.mem_cons_self a rest), Bool.false_eq_true,
      if_false]
    exact ih fun b hb => h b (List.mem_cons_of_mem a hb)

lemma checkAlarmsGo_append (now : Nat × Nat) (l1 l2 : List Alarm) (st : AMState) :
    checkAlarmsGo now (l1 ++ l2) st =
      ((checkAlarmsGo now l2 (checkAlarmsGo now l1 st).1).1,
        (checkAlarmsGo now l1 st).2 ++ (checkAlarmsGo now l2 (checkAlarmsGo now l1 st).1).2) := by
  induction l1 generalizing st with
  | nil => simp [checkAlarmsGo]
  | cons a rest ih =>
    by_cases hd : dueNow now st a <;> simp [checkAlarmsGo, hd, ih]

lemma checkAlarmsGo_triggered_enabled (now : Nat × Nat) (l : List Alarm) (st : AMState)
    (b : Alarm) (hb : AMEvent.alarm_triggered b ∈ (checkAlarmsGo now l st).2) :
    b.enabled = true := by
  induction l generalizing st with
  | nil => simp [checkAlarmsGo] at hb
  | cons a rest ih =>
    by_cases hd : dueNow now st a
    · simp only [checkAlarmsGo, hd, if_true, trigger_alarm_snd, List.cons_append,
        List.nil_append, List.mem_cons] at hb
      rcases hb with hb | hb
      · have : a.enabled = true := by
          simp [dueNow] at hd
          exact hd.1.1.1
        rw [AMEvent.alarm_triggered.injEq] at hb
        rw [hb, this]
      · exact ih _ hb
    · simp only [checkAlarmsGo, hd, if_false, Bool.false_eq_true] at hb
      exact ih _ hb

lemma checkAlarmsGo_active_preserved (now : Nat × Nat) (l : List Alarm) (st : AMState)
    (k : String) (hk : keyMem st.active_alarms k = false)
    (hid : ∀ b ∈ l, b.id = k → b.enabled = false) :
    keyMem ((checkAlarmsGo now l st).1).active_alarms k = false := by
  induction l generalizing st with
  | nil => simpa [checkAlarmsGo]
  | cons a rest ih =>
    by_cases hd : dueNow now st a
    · have hen : a.enabled = true := by
        simp [dueNow] at hd
        exact hd.1.1.1
      have hne : a.id ≠ k := by
        intro h
        rw [hid a (List.mem_cons_self a rest) h] at hen
        exact Bool.false_ne_true hen
      have hk' : keyMem ((st.trigger_alarm a).1).active_alarms k = false := by
        by_cases had : a.auto_dismiss <;>
          simp [AMState.trigger_alarm, had, keyMem_dictSet_ne _ _ _ _ (Ne.symm hne), hk]
      simp only [checkAlarmsGo, hd, if_true]
      exact ih _ hk' fun b hb => hid b (List.mem_cons_of_mem a hb)
    · simp only [checkAlarmsGo, hd, if_false, Bool.false_eq_true]
      exact ih _ hk fun b hb => hid b (List.mem_cons_of_mem a hb)

/-! ## C2, C3, C7, C9 -/

/-- C2 counterexample: for an enabled alarm with `auto_dismiss = false`,
the first poll at its time fires it but does NOT put its id into the
ringing set (`active_alarms`), and a second poll at the same (hour,
minute) emits `alarm_triggered` again — refuting the claim that the id is
added to the ringing set even when `auto_dismiss` is false and that a
second poll never refires. -/
theorem c2_counterexample :
    keyMem ((AMState.check_alarms ⟨[exAlarmNoAuto], [], []⟩ (8, 0)).1).active_alarms
        exAlarmNoAuto.id = false ∧
    ((AMState.check_alarms ⟨[exAlarmNoAuto], [], []⟩ (8, 0)).1.check_alarms (8, 0)).2 =
      [AMEvent.alarm_triggered exAlarmNoAuto] ∧
    ((AMState.check_alarms ⟨[exAlarmNoAuto], [], []⟩ (8, 0)).1.check_alarms (8, 0)).2 ≠ [] := by
  refine ⟨rfl, rfl, ?_⟩
  decide

/-- C2 (amended): for an enabled alarm `a` due at the polled (hour,
minute) in a manager whose alarms have pairwise-distinct times (the
invariant `add_alarm` maintains), a poll emits exactly one
`alarm_triggered`.  When `auto_dismiss` is true, `a.id` enters the ringing
set and a second poll at the same time emits nothing; when `auto_dismiss`
is false, the id is NOT added (the state is unchanged) and a second poll
fires the alarm again. -/
theorem c2_no_refire_within_minute (now : Nat × Nat) (st : AMState) (a : Alarm)
    (hpw : timesDistinct st.alarms) (hmem : a ∈ st.alarms)
    (hen : a.enabled = true) (hh : a.time.hour = now.1) (hm : a.time.minute = now.2)
    (hact : keyMem st.active_alarms a.id = false) :
    (st.check_alarms now).2 = [AMEvent.alarm_triggered a] ∧
    (a.auto_dismiss = true →
      keyMem ((st.check_alarms now).1).active_alarms a.id = true ∧
      ((st.check_alarms now).1.check_alarms now).2 = []) ∧
    (a.auto_dismiss = false →
      (st.check_alarms now).1 = st ∧
      ((st.check_alarms now).1.check_alarms now).2 = [AMEvent.alarm_triggered a]) := by
  obtain ⟨l1, l2, hsplit⟩ := List.append_of_mem hmem
  have hpw' : (l1 ++ a :: l2).Pairwise
      (fun x y => ¬(x.time.hour = y.time.hour ∧ x.time.minute = y.time.minute)) := by
    rw [timesDistinct, hsplit] at hpw
    exact hpw
  rw [List.pairwise_append] at hpw'
  have hl1 : ∀ b ∈ l1, ¬(b.time.hour = now.1 ∧ b.time.minute = now.2) := by
    intro b hb hbm
    exact hpw'.2.2 b hb a (List.mem_cons_self a l2)
      ⟨hbm.1.trans hh.symm, hbm.2.trans hm.symm⟩
  have hl2 : ∀ b ∈ l2, ¬(b.time.hour = now.1 ∧ b.time.minute = now.2) := by
    intro b hb hbm
    exact (List.pairwise_cons.mp hpw'.2.1).1 b hb
      ⟨hh.trans hbm.1.symm, hm.trans hbm.2.symm⟩
  have hdue1 : dueNow now st a = true := by
    simp [dueNow, hen, hh, hm, hact]
  have g1 : ∀ st' : AMState, checkAlarmsGo now l1 st' = (st', []) := fun st' =>
    checkAlarmsGo_no_match now l1 st'
      (fun b hb => dueNow_false_of_not_match now st' b (hl1 b hb))
  have g2 : ∀ st' : AMState, checkAlarmsGo now l2 st' = (st', []) := fun st' =>
    checkAlarmsGo_no_match now l2 st'
      (fun b hb => dueNow_false_of_not_match now st' b (hl2 b hb))
  have hcheck1 : st.check_alarms now = ((st.trigger_alarm a).1, [AMEvent.alarm_triggered a]) := by
    rw [AMState.check_alarms, hsplit, checkAlarmsGo_append, g1]
    simp only [checkAlarmsGo, hdue1, if_true, g2, trigger_alarm_snd]
    simp
  by_cases had : a.auto_dismiss
  · -- auto-dismiss: the id is recorded; the second poll is suppressed
    have htrig : (st.trigger_alarm a).1 =
        { st with active_alarms := dictSet st.active_alarms a.id (a.duration * 1000) } := by
      simp [AMState.trigger_alarm, had]
    have hmem2 : keyMem ((st.trigger_alarm a).1).active_alarms a.id = true := by
      rw [htrig]
      exact keyMem_dictSet_self _ _ _
    have hall : ∀ b ∈ ((st.trigger_alarm a).1).alarms,
        dueNow now (st.trigger_alarm a).1 b = false := by
      rw [trigger_alarm_fst_alarms, hsplit]
      intro b hb
      rcases List.mem_append.mp hb with hb1 | hb2
      · exact dueNow_false_of_not_match now _ b (hl1 b hb1)
      · rcases List.mem_cons.mp hb2 with rfl | hb3
        · simp [dueNow, hmem2]
        · exact dueNow_false_of_not_match now _ b (hl2 b hb3)
    have hcheck2 : (st.trigger_alarm a).1.check_alarms now = ((st.trigger_alarm a).1, []) := by
      rw [AMState.check_alarms]
      exact checkAlarmsGo_no_match now _ _ hall
    refine ⟨by rw [hcheck1], fun _ => ⟨?_, ?_⟩, fun hfalse => ?_⟩
    · rw [hcheck1]
      exact hmem2
    · rw [hcheck1]
      rw [hcheck2]
    · rw [had] at hfalse
      exact absurd hfalse (by simp)
  · -- no auto-dismiss: the state is untouched and the poll repeats
    have hadf : a.auto_dismiss = false := Bool.not_eq_true _ ▸ eq_false_of_ne_true had
    have htrig : (st.trigger_alarm a).1 = st := by
      simp [AMState.trigger_alarm, hadf]
    refine ⟨by rw [hcheck1], fun htrue => absurd htrue had, fun _ => ⟨?_, ?_⟩⟩
    · rw [hcheck1, htrig]
    · rw [hcheck1, htrig, hcheck1, htrig]

/-- Witness for C2 (amended) at a concrete input: a single enabled
non-auto-dismiss alarm at 08:00, polled twice at 08:00. -/
theorem c2_no_refire_within_minute_witness :
    ((⟨[exAlarmNoAuto], [], []⟩ : AMState).check_alarms (8, 0)).2 =
      [AMEvent.alarm_triggered exAlarmNoAuto] ∧
    (exAlarmNoAuto.auto_dismiss = true →
      keyMem (((⟨[exAlarmNoAuto], [], []⟩ : AMState).check_alarms (8, 0)).1).active_alarms
          exAlarmNoAuto.id = true ∧
      (((⟨[exAlarmNoAuto], [], []⟩ : AMState).check_alarms (8, 0)).1.check_alarms (8, 0)).2 = []) ∧
    (exAlarmNoAuto.auto_dismiss = false →
      ((⟨[exAlarmNoAuto], [], []⟩ : AMState).check_alarms (8, 0)).1 =
        (⟨[exAlarmNoAuto], [], []⟩ : AMState) ∧
      (((⟨[exAlarmNoAuto], [], []⟩ : AMState).check_alarms (8, 0)).1.check_alarms (8, 0)).2 =
        [AMEvent.alarm_triggered exAlarmNoAuto]) :=
  c2_no_refire_within_minute (8, 0) ⟨[exAlarmNoAuto], [], []⟩ exAlarmNoAuto
    (by simp [timesDistinct]) (by decide) (by decide) (by decide) (by decide) (by decide)

/-- C3 counterexample: after an `auto_dismiss = true` alarm fires and its
countdown expires (the one-shot timer calls `dismiss_alarm`), the alarm is
still in the alarm sequence and no `alarms_updated` event is emitted —
refuting the claim that the scheduler removes the entry and re-emits the
collection-changed event. -/
theorem c3_counterexample :
    exAlarm ∈ (((AMState.trigger_alarm ⟨[exAlarm], [], []⟩ exAlarm).1.timer_expiry
        exAlarm.id).1).alarms ∧
    ((AMState.trigger_alarm ⟨[exAlarm], [], []⟩ exAlarm).1.timer_expiry exAlarm.id).2 = [] := by
  decide

/-- C3 (amended): when the auto-dismiss countdown of a fired
`auto_dismiss = true` alarm expires, the scheduler removes the alarm's id
from the ringing set only: the alarm entry remains in the alarm sequence
unchanged and no `alarms_updated` event is emitted. -/
theorem c3_auto_dismiss_clears_ringing_only (st : AMState) (a : Alarm)
    (had : a.auto_dismiss = true) :
    (((st.trigger_alarm a).1.timer_expiry a.id).1).alarms = st.alarms ∧
    keyMem ((((st.trigger_alarm a).1.timer_expiry a.id).1)).active_alarms a.id = false ∧
    ((st.trigger_alarm a).1.timer_expiry a.id).2 = [] := by
  simp [AMState.trigger_alarm, had, AMState.timer_expiry, AMState.dismiss_alarm,
    keyMem_dictSet_self, keyMem_dictPop_self]

/-- Witness for C3 (amended) at a concrete input. -/
theorem c3_auto_dismiss_clears_ringing_only_witness :
    (((AMState.trigger_alarm ⟨[exAlarm], [], []⟩ exAlarm).1.timer_expiry
        exAlarm.id).1).alarms = (⟨[exAlarm], [], []⟩ : AMState).alarms ∧
    keyMem ((((AMState.trigger_alarm ⟨[exAlarm], [], []⟩ exAlarm).1.timer_expiry
        exAlarm.id).1)).active_alarms exAlarm.id = false ∧
    ((AMState.trigger_alarm ⟨[exAlarm], [], []⟩ exAlarm).1.timer_expiry exAlarm.id).2 = [] :=
  c3_auto_dismiss_clears_ringing_only ⟨[exAlarm], [], []⟩ exAlarm rfl

/-- C7: firing an `auto_dismiss = true` alarm registers its id in the
ringing set with a one-shot timer of `duration` seconds (`duration * 1000`
ms); the timer's expiry (wired to `dismiss_alarm`) removes the id from the
ringing set; and dismissing an id with no active timer is an idempotent
no-op that emits nothing. -/
theorem c7_auto_dismiss_timer (st st2 : AMState) (a : Alarm) (aid : String)
    (had : a.auto_dismiss = true)
    (habsent : keyMem st2.active_alarms aid = false) :
    lookupKey ((st.trigger_alarm a).1).active_alarms a.id = some (a.duration * 1000) ∧
    keyMem ((((st.trigger_alarm a).1).timer_expiry a.id).1).active_alarms a.id = false ∧
    st2.dismiss_alarm aid = (st2, []) := by
  refine ⟨?_, ?_, ?_⟩
  · simp [AMState.trigger_alarm, had, lookupKey_dictSet_self]
  · simp [AMState.trigger_alarm, had, AMState.timer_expiry, AMState.dismiss_alarm,
      keyMem_dictSet_self, keyMem_dictPop_self]
  · simp [AMState.dismiss_alarm, habsent]

/-- Witness for C7 at a concrete input. -/
theorem c7_auto_dismiss_timer_witness :
    lookupKey ((AMState.trigger_alarm ⟨[exAlarm], [], []⟩ exAlarm).1).active_alarms
        exAlarm.id = some (exAlarm.duration * 1000) ∧
    keyMem ((((AMState.trigger_alarm ⟨[exAlarm], [], []⟩ exAlarm).1).timer_expiry
        exAlarm.id).1).active_alarms exAlarm.id = false ∧
    AMState.dismiss_alarm emptyAM "absent-id" = (emptyAM, []) :=
  c7_auto_dismiss_timer ⟨[exAlarm], [], []⟩ emptyAM exAlarm "absent-id" rfl rfl

/-- C9: disabled alarms never fire.  For any alarm with `enabled = false`,
a poll at any wall-clock time emits no `alarm_triggered` for it, and (as
long as every alarm carrying its id is disabled) its id never enters the
ringing set. -/
theorem c9_disabled_never_fire (now : Nat × Nat) (st : AMState) (a : Alarm)
    (ha : a.enabled = false)
    (hact : keyMem st.active_alarms a.id = false)
    (hid : ∀ b ∈ st.alarms, b.id = a.id → b.enabled = false) :
    AMEvent.alarm_triggered a ∉ (st.check_alarms now).2 ∧
    keyMem ((st.check_alarms now).1).active_alarms a.id = false := by
  constructor
  · intro hmem
    have hen := checkAlarmsGo_triggered_enabled now st.alarms st a hmem
    rw [ha] at hen
    exact Bool.false_ne_true hen
  · exact checkAlarmsGo_active_preserved now st.alarms st a.id hact hid

/-- Witness for C9 at a concrete input: a disabled alarm polled exactly at
its own time. -/
theorem c9_disabled_never_fire_witness :
    AMEvent.alarm_triggered exAlarmDisabled ∉
      ((⟨[exAlarmDisabled], [], []⟩ : AMState).check_alarms (9, 30)).2 ∧
    keyMem (((⟨[exAlarmDisabled], [], []⟩ : AMState).check_alarms (9, 30)).1).active_alarms
      exAlarmDisabled.id = false :=
  c9_disabled_never_fire (9, 30) ⟨[exAlarmDisabled], [], []⟩ exAlarmDisabled
    rfl rfl (by decide)

/-! ## Helper lemmas: scheduled-notification poll -/

lemma checkScheduledGo_spec (now : Int) (l : List ScheduledNotification) (st : NMState) :
    ((checkScheduledGo now l st).1).notifications =
        st.notifications ++
          deliverList now st.nextObjId (l.filter (fun s => decide (s.when ≤ now))) ∧
    ((checkScheduledGo now l st).1).scheduled_notifications = st.scheduled_notifications ∧
    ((checkScheduledGo now l st).1).nextObjId =
        st.nextObjId + (l.filter (fun s => decide (s.when ≤ now))).length ∧
    (checkScheduledGo now l st).2.1 =
        deliverEvents now st.nextObjId st.notifications
          (l.filter (fun s => decide (s.when ≤ now))) ∧
    (checkScheduledGo now l st).2.2 = l.filter (fun s => decide (s.when ≤ now)) := by
  induction l generalizing st with
  | nil => simp [checkScheduledGo, deliverList, deliverEvents]
  | cons s rest ih =>
    by_cases hs : s.when ≤ now
    · have ihs := ih (st.add_notification now s.title s.message s.category).1
      simp only [checkScheduledGo, if_pos hs, List.filter_cons, decide_eq_true hs,
        if_true, NMState.add_notification] at ihs ⊢
      simp only [deliverList, deliverEvents, deliverNotif, stampStr] at ihs ⊢
      refine ⟨?_, ?_, ?_, ?_, ?_⟩
      · rw [ihs.1]
        simp
      · rw [ihs.2.1]
      · rw [ihs.2.2.1]
        simp
        omega
      · rw [ihs.2.2.2.1]
        simp
      · rw [ihs.2.2.2.2]
    · have ihs := ih st
      simp only [checkScheduledGo, if_neg hs, List.filter_cons] at ihs ⊢
      simpa [hs] using ihs

lemma foldl_removeFirst_cons_ne (x : ScheduledNotification)
    (cur : List ScheduledNotification) (rs : List ScheduledNotification)
    (h : ∀ r ∈ rs, r ≠ x) :
    List.foldl removeFirst (x :: cur) rs = x :: List.foldl removeFirst cur rs := by
  induction rs generalizing cur with
  | nil => rfl
  | cons r rs ih =>
    have hrx : x ≠ r := Ne.symm (h r (List.mem_cons_self r rs))
    simp only [List.foldl_cons, removeFirst, if_neg hrx]
    exact ih _ fun r' hr' => h r' (List.mem_cons_of_mem r hr')

lemma foldl_removeFirst_filter (p : ScheduledNotification → Bool)
    (l : List ScheduledNotification) :
    List.foldl removeFirst l (l.filter p) = l.filter (fun x => !(p x)) := by
  induction l with
  | nil => rfl
  | cons x xs ih =>
    by_cases hx : p x
    · simp only [List.filter_cons, hx, if_true, List.foldl_cons, removeFirst, if_pos rfl]
      simpa [hx] using ih
    · have hne : ∀ r ∈ xs.filter p, r ≠ x := by
        intro r hr hrx
        rw [List.mem_filter] at hr
        rw [hrx] at hr
        exact hx hr.2
      simp only [List.filter_cons, hx, if_false, Bool.false_eq_true]
      rw [foldl_removeFirst_cons_ne x xs _ hne, ih]
      simp [hx]

lemma addedOf_deliverEvents (now : Int) (objId : Nat) (delivered : List Notification)
    (l : List ScheduledNotification) :
    addedOf (deliverEvents now objId delivered l) = deliverList now objId l := by
  induction l generalizing objId delivered with
  | nil => rfl
  | cons s rest ih =>
    simp only [addedOf] at ih ⊢
    simp [deliverEvents, deliverList, List.filterMap_cons, ih]

/-! ## C5, C6 -/

/-- C5: deferred delivery.  A poll at time `now` removes from the pending
queue exactly the requests with `when ≤ now`, appends one delivered
notification per due request in pending-queue insertion order, produces
one `notification_added` per due request (in that order, via
`add_notification`) and nothing else; and a poll at which every pending
request has `when > now` delivers nothing and leaves the state
unchanged. -/
theorem c5_deferred_delivery (now : Int) (st : NMState) :
    ((st.check_scheduled_notifications now).1).scheduled_notifications =
        st.scheduled_notifications.filter (fun s => decide (now < s.when)) ∧
    ((st.check_scheduled_notifications now).1).notifications =
        st.notifications ++ deliverList now st.nextObjId
          (st.scheduled_notifications.filter (fun s => decide (s.when ≤ now))) ∧
    (st.check_scheduled_notifications now).2 =
        deliverEvents now st.nextObjId st.notifications
          (st.scheduled_notifications.filter (fun s => decide (s.when ≤ now))) ∧
    addedOf ((st.check_scheduled_notifications now).2) =
        deliverList now st.nextObjId
          (st.scheduled_notifications.filter (fun s => decide (s.when ≤ now))) ∧
    ((∀ s ∈ st.scheduled_notifications, now < s.when) →
      st.check_scheduled_notifications now = (st, [])) := by
  obtain ⟨ns, ss, oid⟩ := st
  have hgo := checkScheduledGo_spec now ss ⟨ns, ss, oid⟩
  simp only [NMState.check_scheduled_notifications]
  refine ⟨?_, ?_, ?_, ?_, ?_⟩
  · rw [hgo.2.2.2.2, hgo.2.1]
    rw [foldl_removeFirst_filter]
    apply List.filter_congr
    intro s _
    rw [← decide_not]
    simp [Int.not_lt]
  · exact hgo.1
  · exact hgo.2.2.2.1
  · rw [hgo.2.2.2.1]
    exact addedOf_deliverEvents now oid ns _
  · intro hall
    have hfe : ss.filter (fun s => decide (s.when ≤ now)) = [] := by
      rw [List.filter_eq_nil_iff]
      intro s hs
      simp [Int.not_le.mpr (hall s hs)]
    rw [Prod.ext_iff]
    constructor
    · rw [NMState.mk.injEq] at *
      refine ⟨?_, ?_, ?_⟩
      · rw [hgo.1, hfe]
        simp [deliverList]
      · rw [hgo.2.2.2.2, hgo.2.1, hfe]
        simp
      · rw [hgo.2.2.1, hfe]
        simp
    · rw [hgo.2.2.2.1, hfe]
      simp [deliverEvents]

/-- Witness for C5 at concrete inputs: the single pending request of
`exNM` is due at a poll at time 100 and not due at a poll at time 0. -/
theorem c5_deferred_delivery_witness :
    ((exNM.check_scheduled_notifications 100).1).scheduled_notifications =
        exNM.scheduled_notifications.filter (fun s => decide ((100 : Int) < s.when)) ∧
    ((exNM.check_scheduled_notifications 100).1).notifications =
        exNM.notifications ++ deliverList 100 exNM.nextObjId
          (exNM.scheduled_notifications.filter (fun s => decide (s.when ≤ (100 : Int)))) ∧
    exNM.check_scheduled_notifications 0 = (exNM, []) :=
  ⟨(c5_deferred_delivery 100 exNM).1, (c5_deferred_delivery 100 exNM).2.1,
    (c5_deferred_delivery 0 exNM).2.2.2.2 (by decide)⟩

/-- C6: past-due calendar rejection with state unchanged.  For an event
carrying a date and a time, when `event_datetime - minutes_before` is
earlier than the current time the call returns `none` and the whole state
(including the pending queue) is unchanged; otherwise exactly one request
with category `"calendar"` and `when = event_datetime - minutes_before` is
appended to the pending queue and returned. -/
theorem c6_past_due_calendar_rejection (now : Int) (st : NMState) (event : EventData)
    (mb : Int) (d : QDate) (t : QTimeHM)
    (hd : event.date = some d) (ht : event.time = some t) :
    (mkDatetime d t - mb < now →
      st.schedule_calendar_notification now event mb = (st, none)) ∧
    (now ≤ mkDatetime d t - mb →
      st.schedule_calendar_notification now event mb =
        ({ st with
            scheduled_notifications := st.scheduled_notifications ++
              [{ title := "Upcoming Event: " ++ event.title.getD "Untitled Event"
                 message := "Event starts in " ++ toString mb ++ " minutes"
                 when := mkDatetime d t - mb
                 category := "calendar"
                 id := stampStr (mkDatetime d t - mb) ++ "-" ++ toString st.nextObjId }]
            nextObjId := st.nextObjId + 1 },
         some
           { title := "Upcoming Event: " ++ event.title.getD "Untitled Event"
             message := "Event starts in " ++ toString mb ++ " minutes"
             when := mkDatetime d t - mb
             category := "calendar"
             id := stampStr (mkDatetime d t - mb) ++ "-" ++ toString st.nextObjId })) := by
  constructor
  · intro hpast
    simp [NMState.schedule_calendar_notification, hd, ht, hpast]
  · intro hok
    simp [NMState.schedule_calendar_notification, hd, ht, Int.not_lt.mpr hok,
      NMState.schedule_notification]

/-- Witness for C6 at concrete inputs: `exEvent` is on day 10 at 12:00
(minute 15120); with `minutes_before = 15` the request time 15105 is past
at `now = 20000` (rejected) and future at `now = 0` (scheduled). -/
theorem c6_past_due_calendar_rejection_witness :
    exNM.schedule_calendar_notification 20000 exEvent 15 = (exNM, none) ∧
    exNM.schedule_calendar_notification 0 exEvent 15 =
      ({ exNM with
          scheduled_notifications := exNM.scheduled_notifications ++
            [{ title := "Upcoming Event: " ++ exEvent.title.getD "Untitled Event"
               message := "Event starts in " ++ toString (15 : Int) ++ " minutes"
               when := mkDatetime ⟨10⟩ ⟨12, 0⟩ - 15
               category := "calendar"
               id := stampStr (mkDatetime ⟨10⟩ ⟨12, 0⟩ - 15) ++ "-" ++ toString exNM.nextObjId }]
          nextObjId := exNM.nextObjId + 1 },
       some
         { title := "Upcoming Event: " ++ exEvent.title.getD "Untitled Event"
           message := "Event starts in " ++ toString (15 : Int) ++ " minutes"
           when := mkDatetime ⟨10⟩ ⟨12, 0⟩ - 15
           category := "calendar"
           id := stampStr (mkDatetime ⟨10⟩ ⟨12, 0⟩ - 15) ++ "-" ++ toString exNM.nextObjId }) :=
  ⟨(c6_past_due_calendar_rejection 20000 exNM exEvent 15 ⟨10⟩ ⟨12, 0⟩ rfl rfl).1 (by decide),
    (c6_past_due_calendar_rejection 0 exNM exEvent 15 ⟨10⟩ ⟨12, 0⟩ rfl rfl).2 (by decide)⟩

end WeatherAlarmApp
